import Mathlib

/-!
Verification of the softkomik-api extraction/normalization pipeline.

Shallow embedding of the TypeScript sources in `src/modules/` (utils.ts,
chapters.ts, browse.ts, comics.ts, and the legacy standalone scraper.ts).
JavaScript strings are modelled as Lean `String`, nullable values as
`Option`, and JS numbers as `Int` (all numeric fields involved are
integral in the modelled range). A fetched HTML document is modelled by
what the data extractor can observe of it (`ScriptParse` below); the
network is modelled as a function from URL to an optional document,
`none` standing for a thrown transport error.
-/

/-- Model of JavaScript `String.prototype.startsWith` / list prefix test,
written with decidable character equality so that it evaluates by `decide`. -/
def lpre : List Char → List Char → Bool
  | [], _ => true
  | _ :: _, [] => false
  | a :: as, b :: bs => if a = b then lpre as bs else false

/-- JS `s.startsWith(p)`. -/
def strStartsWith (s p : String) : Bool := lpre p.data s.data

/-- JS `s.endsWith(p)` (used to model the end-anchored regex replace). -/
def strEndsWith (s p : String) : Bool := lpre p.data.reverse s.data.reverse

/-- JS `s.slice(n)`. -/
def strDrop (s : String) (n : Nat) : String := ⟨s.data.drop n⟩

/-- JS `s.slice(0, s.length - n)`: drop the last `n` characters. -/
def strDropRight (s : String) (n : Nat) : String := ⟨s.data.take (s.data.length - n)⟩

/-- JS `x || null` on a nullable string: `undefined`/`null` and the empty
string are falsy and collapse to `null`. -/
def jsOrNullStr (o : Option String) : Option String :=
  match o with
  | none => none
  | some s => if s = "" then none else some s

/-- JS `x || null` on a nullable number: `0` is falsy and collapses to `null`. -/
def jsOrNullInt (o : Option Int) : Option Int :=
  match o with
  | none => none
  | some n => if n = 0 then none else some n

/-- src/modules/constants.ts (also inlined at the top of scraper.ts):
the upstream site origin. -/
def BASE_URL : String := "https://softkomik.com"

/-- src/modules/constants.ts (also inlined in scraper.ts): the image asset origin. -/
def IMAGE_BASE_URL : String := "https://image.softkomik.com"

/-- Modelled from the spec: src/modules/constants.ts is not among the
sources; the spec (§4.3 rule 4, §6) names a dedicated cover-image origin,
distinct from the image origin, used for the two cover-path conventions. -/
def COVER_BASE_URL : String := "https://cover.softkomik.com"

/-- utils.ts `resolveImage`: resolve a raw upstream image path to a full URL.
`none` input models `null`/`undefined`; the empty string is falsy in the
`if (!imagePath)` guard. -/
def resolveImage (imagePath : Option String) : Option String :=
  match imagePath with
  | none => none
  | some p =>
    if p = "" then none
    else if strStartsWith p "http" then some p
    else
      let normalizedPath := if strStartsWith p "/" then strDrop p 1 else p
      if strStartsWith normalizedPath "image-cover/" || strStartsWith normalizedPath "uploads-cover" then
        some (COVER_BASE_URL ++ "/" ++ normalizedPath)
      else if strStartsWith normalizedPath "NodeJs/" || strStartsWith normalizedPath "img-file/" then
        some (IMAGE_BASE_URL ++ "/softkomik/" ++ normalizedPath)
      else
        some (IMAGE_BASE_URL ++ "/" ++ normalizedPath)

/-- scraper.ts `resolveImage` (the legacy standalone copy): no leading-slash
normalization, no `uploads-cover` branch, and covers are served from the
image origin rather than a dedicated cover origin. -/
def scraperResolveImage (imagePath : Option String) : Option String :=
  match imagePath with
  | none => none
  | some p =>
    if p = "" then none
    else if strStartsWith p "http" then some p
    else if strStartsWith p "image-cover/" then some (IMAGE_BASE_URL ++ "/" ++ p)
    else if strStartsWith p "NodeJs/" || strStartsWith p "img-file/" then
      some (IMAGE_BASE_URL ++ "/softkomik/" ++ p)
    else
      some (IMAGE_BASE_URL ++ "/" ++ p)

/-- utils.ts `extractSlug`: a regex replace of the end-anchored pattern
"-bahasa-indonesia" by the empty string — remove the locale suffix when
present ("-bahasa-indonesia" has 17 characters). -/
def extractSlug (titleSlug : String) : String :=
  if strEndsWith titleSlug "-bahasa-indonesia" then strDropRight titleSlug 17 else titleSlug

/-- types.ts `ComicListing` (canonical listing shape). -/
structure ComicListing where
  title : String
  slug : String
  url : String
  thumbnail : Option String
  type : Option String
  status : Option String
  latestChapter : Option String
  updatedAt : Option String
deriving DecidableEq, Repr

/-- types.ts `RawComicItem` (upstream-shaped listing record; fields the
code reads defensively with `||` are modelled as optional). -/
structure RawComicItem where
  title : String
  title_slug : String
  gambar : Option String
  type : Option String
  status : Option String
  latest_chapter : Option String
  updated_at : Option String
deriving DecidableEq, Repr

/-- utils.ts `transformComicListing` (and its identical copy in scraper.ts). -/
def transformComicListing (item : RawComicItem) : ComicListing :=
  { title := item.title
    slug := extractSlug item.title_slug
    url := BASE_URL ++ "/" ++ item.title_slug
    thumbnail := resolveImage item.gambar
    type := jsOrNullStr item.type
    status := jsOrNullStr item.status
    latestChapter := jsOrNullStr item.latest_chapter
    updatedAt := jsOrNullStr item.updated_at }

/-- Abstraction of a fetched HTML document, by what utils.ts
`extractNextData` (and the inline copies of its logic) can observe:
the page has no `#__NEXT_DATA__` element or its content is empty
(`noScript`), the script content fails `JSON.parse` (`badJson`), or it
parses and the drilled path `props.pageProps.data` yields `d`
(`parsed none` when the path is missing at some level). -/
inductive ScriptParse (α : Type) where
  | noScript : ScriptParse α
  | badJson : ScriptParse α
  | parsed : Option α → ScriptParse α
deriving DecidableEq, Repr

/-- utils.ts `extractNextData` (and the identical copy in scraper.ts):
yields the embedded payload, or `none` on a missing/empty script element,
a JSON parse failure, or a missing nested path. -/
def extractNextData {α : Type} (html : ScriptParse α) : Option α :=
  match html with
  | .noScript => none
  | .badJson => none
  | .parsed d => d

/-- types.ts `SearchResult`. Page counters are JS numbers, modelled as `Int`. -/
structure SearchResult where
  comics : List ComicListing
  currentPage : Int
  totalPages : Int
deriving DecidableEq, Repr

/-- types.ts `ListPageData` (upstream-shaped list page payload). -/
structure ListPageData where
  page : Int
  maxPage : Int
  data : List RawComicItem
deriving DecidableEq, Repr

/-- comics.ts `scrapeComicList` (and the identical copy in scraper.ts),
after the fetch: the fetched document is the input. -/
def scrapeComicListCore (html : ScriptParse ListPageData) : SearchResult :=
  match extractNextData html with
  | none => { comics := [], currentPage := 1, totalPages := 1 }
  | some data =>
    { comics := data.data.map transformComicListing
      currentPage := data.page
      totalPages := data.maxPage }

/-- browse.ts `scrapeByType` (and the identical copy in scraper.ts),
after the fetch. -/
def scrapeByTypeCore (html : ScriptParse ListPageData) : SearchResult :=
  match extractNextData html with
  | none => { comics := [], currentPage := 1, totalPages := 1 }
  | some data =>
    { comics := data.data.map transformComicListing
      currentPage := data.page
      totalPages := data.maxPage }

/-- browse.ts `scrapeByGenre` (and the identical copy in scraper.ts),
after the fetch. -/
def scrapeByGenreCore (html : ScriptParse ListPageData) : SearchResult :=
  match extractNextData html with
  | none => { comics := [], currentPage := 1, totalPages := 1 }
  | some data =>
    { comics := data.data.map transformComicListing
      currentPage := data.page
      totalPages := data.maxPage }

/-- types.ts rating object `{ value: number; member: number }`. -/
structure Rating where
  value : Int
  member : Int
deriving DecidableEq, Repr

/-- types.ts `ComicDetail` (canonical detail shape). -/
structure ComicDetail where
  title : String
  alternativeTitle : Option String
  type : Option String
  status : Option String
  releaseYear : Option String
  author : Option String
  rating : Option Rating
  description : Option String
  genres : List String
  thumbnail : Option String
  visitor : Option Int
  latestChapter : Option String
  updatedAt : Option String
deriving DecidableEq, Repr

/-- types.ts `RawComicDetail` (upstream-shaped detail record; `?` fields
and nullable fields are `Option`). -/
structure RawComicDetail where
  title : String
  title_alt : Option String
  title_slug : String
  type : Option String
  status : Option String
  tahun : Option String
  author : Option String
  sinopsis : Option String
  Genre : Option (List String)
  gambar : Option String
  latest_chapter : Option String
  updated_at : Option String
  visitor : Option Int
  rating : Option Rating
deriving DecidableEq, Repr

/-- comics.ts `scrapeComicDetail` (and the identical copy in scraper.ts),
after the fetch: JS `||` makes empty strings and zero collapse to null;
`data.rating || null` is the identity on a present object; genres default
to the empty array (`data.Genre || []`, a present empty array being truthy). -/
def scrapeComicDetailCore (html : ScriptParse RawComicDetail) : Option ComicDetail :=
  match extractNextData html with
  | none => none
  | some data =>
    some
      { title := data.title
        alternativeTitle := jsOrNullStr data.title_alt
        type := jsOrNullStr data.type
        status := jsOrNullStr data.status
        releaseYear := jsOrNullStr data.tahun
        author := jsOrNullStr data.author
        rating := data.rating
        description := jsOrNullStr data.sinopsis
        genres := data.Genre.getD []
        thumbnail := resolveImage data.gambar
        visitor := jsOrNullInt data.visitor
        latestChapter := jsOrNullStr data.latest_chapter
        updatedAt := jsOrNullStr data.updated_at }

/-- JS whitespace test for the characters `parseInt` skips. -/
def jsWhitespace (c : Char) : Bool :=
  c = ' ' || c = '\t' || c = '\n' || c = '\r'

/-- Digits of a decimal literal read left to right. -/
def digitsToNat (ds : List Char) : Nat :=
  ds.foldl (fun a c => 10 * a + (c.toNat - 48)) 0

/-- Model of JS `parseInt(s)` (radix 10): skip leading whitespace, read an
optional sign, then the maximal run of leading decimal digits; `none`
models `NaN` (no digits). Doubles are exact on every integer this model
is combined with (the round-trip test below can only succeed on short
strings), so the value is an exact `Int`. -/
def jsParseInt (s : String) : Option Int :=
  let cs := s.data.dropWhile jsWhitespace
  let signAndRest : Int × List Char :=
    match cs with
    | '-' :: rest => (-1, rest)
    | '+' :: rest => (1, rest)
    | _ => (1, cs)
  let ds := signAndRest.2.takeWhile Char.isDigit
  if ds.isEmpty then none else some (signAndRest.1 * (digitsToNat ds : Int))

/-- Model of JS `String(n)` / `n.toString()` for an integral number. -/
def jsNumToString (n : Int) : String :=
  if n < 0 then "-" ++ ⟨Nat.toDigits 10 n.natAbs⟩ else ⟨Nat.toDigits 10 n.natAbs⟩

/-- JS `s.padStart(w, '0')`. -/
def jsPadStart (s : String) (w : Nat) : String :=
  ⟨List.replicate (w - s.data.length) '0' ++ s.data⟩

/-- Insertion-order deduplication, as JS `[...new Set(l)]`. -/
def dedupAux : List String → List String → List String
  | [], _ => []
  | x :: xs, seen => if x ∈ seen then dedupAux xs seen else x :: dedupAux xs (x :: seen)

/-- JS `[...new Set(variations)]`: drop later duplicates, keeping first
occurrences in order. -/
def jsSetDedup (l : List String) : List String := dedupAux l []

/-- chapters.ts condition `!isNaN(num) && String(num) === chapter` with
`num = parseInt(chapter)`: the input is the exact string form of the
integer `parseInt` reads from it. -/
def isPlainIntString (chapter : String) : Bool :=
  match jsParseInt chapter with
  | none => false
  | some num => jsNumToString num == chapter

/-- chapters.ts `getChapterVariations` (and the identical copy in
scraper.ts): the input first, then zero-padded forms at widths 2, 3, 4
wherever the input is shorter, when the parse round-trip test holds;
deduplicated in insertion order. -/
def getChapterVariations (chapter : String) : List String :=
  let variations := [chapter]
  let variations :=
    match jsParseInt chapter with
    | none => variations
    | some num =>
      if jsNumToString num = chapter then
        let v2 := if chapter.data.length < 2 then variations ++ [jsPadStart (jsNumToString num) 2] else variations
        let v3 := if chapter.data.length < 3 then v2 ++ [jsPadStart (jsNumToString num) 3] else v2
        if chapter.data.length < 4 then v3 ++ [jsPadStart (jsNumToString num) 4] else v3
      else variations
  jsSetDedup variations

/-- types.ts `RawChapterData.prevChapter` / `nextChapter` entries. -/
structure ChapterRef where
  chapter : String
deriving DecidableEq, Repr

/-- types.ts `RawChapterData.data`: the chapter image payload. -/
structure ChapterPayload where
  chapter : String
  imageSrc : List String
deriving DecidableEq, Repr

/-- types.ts `RawChapterData.komik`. -/
structure Komik where
  title : String
  title_slug : String
  type : String
deriving DecidableEq, Repr

/-- types.ts `RawChapterData`; `komik` is optional here because the code
reads it with optional chaining, and `data` is nullable in the source type. -/
structure RawChapterData where
  komik : Option Komik
  chapter : String
  data : Option ChapterPayload
  prevChapter : List ChapterRef
  nextChapter : List ChapterRef
deriving DecidableEq, Repr

/-- The chapter page URL template of chapters.ts `tryFetchChapter`. -/
def chapterPath (comicSlug chapterVar : String) : String :=
  "/" ++ comicSlug ++ "-bahasa-indonesia/chapter/" ++ chapterVar

/-- The pass-one test of chapters.ts `tryFetchChapter` on one fetched page:
`chapterData?.data?.imageSrc && chapterData.data.imageSrc.length > 0`
(a missing script, a JSON parse throw — caught — or a missing payload all
fail the test). -/
def hasImages (page : ScriptParse RawChapterData) : Bool :=
  match page with
  | .parsed (some d) =>
    match d.data with
    | some dd => !dd.imageSrc.isEmpty
    | none => false
  | _ => false

/-- Whether a variant succeeds in pass one of `tryFetchChapter` under the
fetch oracle: its page loads and carries a non-empty image list. -/
def goodVariant (fetch : String → Option (ScriptParse RawChapterData)) (comicSlug chapterVar : String) : Bool :=
  match fetch (chapterPath comicSlug chapterVar) with
  | some page => hasImages page
  | none => false

/-- chapters.ts `tryFetchChapter`, first loop: return the first variant
whose page loads with actual image data; fetch failures and parse
failures are caught and skipped. -/
def pass1 (fetch : String → Option (ScriptParse RawChapterData)) (comicSlug : String) :
    List String → Option (ScriptParse RawChapterData × String)
  | [] => none
  | v :: rest =>
    match fetch (chapterPath comicSlug v) with
    | some page => if hasImages page then some (page, v) else pass1 fetch comicSlug rest
    | none => pass1 fetch comicSlug rest

/-- chapters.ts `tryFetchChapter`, second loop: return the first variant
whose page loads at all. -/
def pass2 (fetch : String → Option (ScriptParse RawChapterData)) (comicSlug : String) :
    List String → Option (ScriptParse RawChapterData × String)
  | [] => none
  | v :: rest =>
    match fetch (chapterPath comicSlug v) with
    | some page => some (page, v)
    | none => pass2 fetch comicSlug rest

/-- chapters.ts `tryFetchChapter` (and the identical copy in scraper.ts):
probe the variants for image data, then fall back to the first variant
that loads, else `null`. The network is a deterministic oracle from URL
to an optional fetched document. -/
def tryFetchChapter (fetch : String → Option (ScriptParse RawChapterData)) (comicSlug chapter : String) :
    Option (ScriptParse RawChapterData × String) :=
  let variations := getChapterVariations chapter
  match pass1 fetch comicSlug variations with
  | some r => some r
  | none => pass2 fetch comicSlug variations

/-- types.ts `ChapterImages`. -/
structure ChapterImages where
  title : String
  comicSlug : String
  chapterNumber : String
  images : List String
  prevChapter : Option String
  nextChapter : Option String
deriving DecidableEq, Repr

/-- chapters.ts `scrapeChapterImages` (and the identical copy in
scraper.ts): resolve a chapter through `tryFetchChapter`, re-extract the
payload from the chosen page, build resolved image URLs (dropping
unresolvable ones), and read adjacent chapter labels. -/
def scrapeChapterImages (fetch : String → Option (ScriptParse RawChapterData)) (comicSlug chapter : String) :
    Option ChapterImages :=
  match tryFetchChapter fetch comicSlug chapter with
  | none => none
  | some (page, usedChapter) =>
    match page with
    | .noScript => none
    | .badJson => none
    | .parsed none => none
    | .parsed (some chapterData) =>
      some
        { title := (chapterData.komik.map Komik.title).getD ""
          comicSlug := comicSlug
          chapterNumber := usedChapter
          images :=
            match chapterData.data with
            | some dd => dd.imageSrc.filterMap (fun src => resolveImage (some src))
            | none => []
          prevChapter := jsOrNullStr ((chapterData.prevChapter.head?).map ChapterRef.chapter)
          nextChapter := jsOrNullStr ((chapterData.nextChapter.head?).map ChapterRef.chapter) }

/-- Number of (possibly overlapping) occurrences of `needle` in `hay`:
one per starting position at which `needle` is a prefix of the rest. -/
def countOccur (needle : List Char) : List Char → Nat
  | [] => 0
  | c :: rest => (if lpre needle (c :: rest) then 1 else 0) + countOccur needle rest

/-- Occurrences of `needle` that start within the first `s.length`
positions of `s ++ t`. -/
def countAux (needle : List Char) : List Char → List Char → Nat
  | [], _ => 0
  | c :: s, t => (if lpre needle (c :: (s ++ t)) then 1 else 0) + countAux needle s t

/-- The chapter path segment of utils.ts `resolveImage`, as characters. -/
def segChars : List Char := ("/softkomik/").data

/-- Example raw listing item for the normalizer theorems. -/
def itemEx : RawComicItem :=
  { title := "Solo Leveling"
    title_slug := "solo-leveling-bahasa-indonesia"
    gambar := some "image-cover/solo-leveling.webp"
    type := some "manhwa"
    status := some "ongoing"
    latest_chapter := some "179"
    updated_at := some "2025-11-21T12:53:06.341Z" }

/-- Example raw detail whose optional description is present but empty
and whose visitor count is present and zero. -/
def rawDetailEmptyFields : RawComicDetail :=
  { title := "T"
    title_alt := none
    title_slug := "t"
    type := some "manga"
    status := none
    tahun := none
    author := none
    sinopsis := some ""
    Genre := none
    gambar := some "image-cover/t.webp"
    latest_chapter := none
    updated_at := none
    visitor := some 0
    rating := none }

/-- Raw detail with present-but-empty alternative title, description,
and zero visitor count. -/
def rawDetailAllEmpty : RawComicDetail :=
  { title := "T"
    title_alt := some ""
    title_slug := "t"
    type := none
    status := none
    tahun := none
    author := none
    sinopsis := some ""
    Genre := some []
    gambar := none
    latest_chapter := none
    updated_at := none
    visitor := some 0
    rating := none }

/-- The normalized form of `rawDetailEmptyFields`. -/
def detailOutEmptyFields : ComicDetail :=
  { title := "T"
    alternativeTitle := none
    type := some "manga"
    status := none
    releaseYear := none
    author := none
    rating := none
    description := none
    genres := []
    thumbnail := some "https://cover.softkomik.com/image-cover/t.webp"
    visitor := none
    latestChapter := none
    updatedAt := none }

/-- Example upstream list payload carrying in-range page counters. -/
def listPageEx : ListPageData := { page := 2, maxPage := 5, data := [] }

/-- Chapter page of the witness scenario that carries images (served
under the padded variant "008"). -/
def chapterPageWithImages : ScriptParse RawChapterData :=
  .parsed (some
    { komik := some { title := "Solo Leveling", title_slug := "solo-leveling", type := "manhwa" }
      chapter := "008"
      data := some { chapter := "008", imageSrc := ["NodeJs/ch8/0.webp", "NodeJs/ch8/1.webp"] }
      prevChapter := [{ chapter := "007" }]
      nextChapter := [{ chapter := "009" }] })

/-- Chapter page of the witness scenario that loads but has no images
(served under the caller's literal variant "8"). -/
def chapterPageNoImages : ScriptParse RawChapterData :=
  .parsed (some
    { komik := some { title := "Solo Leveling", title_slug := "solo-leveling", type := "manhwa" }
      chapter := "8"
      data := none
      prevChapter := []
      nextChapter := [] })

/-- Fetch oracle: upstream serves images only under the "008" path,
while the "8" path loads without images and every other path fails. -/
def fetchOnlyPadded : String → Option (ScriptParse RawChapterData) := fun url =>
  if url = chapterPath "solo-leveling" "8" then some chapterPageNoImages
  else if url = chapterPath "solo-leveling" "008" then some chapterPageWithImages
  else none

/-- Fetch oracle: the "8" path loads successfully but its page has no
embedded data script; every other path fails. -/
def fetchLoadsNoScript : String → Option (ScriptParse RawChapterData) := fun url =>
  if url = chapterPath "solo-leveling" "8" then some (.noScript) else none



theorem jsOrNullStr_eq_none (o : Option String) :
    jsOrNullStr o = none ↔ o = none ∨ o = some "" := by
  cases o with
  | none => simp [jsOrNullStr]
  | some s =>
    by_cases h : s = "" <;> simp [jsOrNullStr, h]

theorem jsOrNullInt_eq_none (o : Option Int) :
    jsOrNullInt o = none ↔ o = none ∨ o = some 0 := by
  cases o with
  | none => simp [jsOrNullInt]
  | some n =>
    by_cases h : n = 0 <;> simp [jsOrNullInt, h]

theorem lpre_nil_right (p : List Char) (c : Char) (cs : List Char) :
    p = c :: cs → lpre p [] = false := by
  intro h; subst h; rfl

theorem strStartsWith_ne_empty (s p : String) (c : Char) (cs : List Char)
    (hp : p.data = c :: cs) (h : strStartsWith s p = true) : ¬s = "" := by
  intro he
  subst he
  rw [strStartsWith, hp] at h
  simp [lpre] at h

/-- C10 (confirmed): both path resolvers treat any input beginning with
the four characters "http" — URL or not — as already absolute and return
it unchanged, never prefixing an origin. -/
theorem c10_theorem (s : String) (h : strStartsWith s "http" = true) :
    resolveImage (some s) = some s ∧ scraperResolveImage (some s) = some s := by
  have hne : ¬s = "" := strStartsWith_ne_empty s "http" 'h' ['t', 't', 'p'] rfl h
  constructor
  · simp [resolveImage, hne, h]
  · simp [scraperResolveImage, hne, h]

theorem c10_witness :
    strStartsWith "httpdocs/img.png" "http" = true
    ∧ resolveImage (some "httpdocs/img.png") = some "httpdocs/img.png"
    ∧ scraperResolveImage (some "httpdocs/img.png") = some "httpdocs/img.png" :=
  ⟨by decide, c10_theorem "httpdocs/img.png" (by decide)⟩

/-- C9 counterexample: the two resolvers differ on a leading-slash path —
utils.ts strips the slash before prefixing, scraper.ts does not. -/
theorem c9_counterexample :
    resolveImage (some "/a") = some "https://image.softkomik.com/a"
    ∧ scraperResolveImage (some "/a") = some "https://image.softkomik.com//a"
    ∧ resolveImage (some "/a") ≠ scraperResolveImage (some "/a") := by
  refine ⟨by decide, by decide, by decide⟩

/-- C9 (corrected): the two resolvers agree on absent and empty input,
and on every path that neither begins with a leading slash nor with one
of the cover-prefix conventions; they differ on leading-slash paths
(normalization) and on cover paths (cover origin vs image origin). -/
theorem c9_theorem :
    resolveImage none = scraperResolveImage none
    ∧ ∀ s : String, strStartsWith s "/" = false →
        strStartsWith s "image-cover/" = false →
        strStartsWith s "uploads-cover" = false →
        resolveImage (some s) = scraperResolveImage (some s) := by
  refine ⟨rfl, ?_⟩
  intro s h1 h2 h3
  by_cases he : s = ""
  · simp [resolveImage, scraperResolveImage, he]
  · by_cases hh : strStartsWith s "http"
    · simp [resolveImage, scraperResolveImage, he, hh]
    · simp [resolveImage, scraperResolveImage, he, hh, h1, h2, h3]

theorem c9_witness :
    resolveImage (some "NodeJs/x.png") = scraperResolveImage (some "NodeJs/x.png") :=
  c9_theorem.2 "NodeJs/x.png" (by decide) (by decide) (by decide)

/-- C5 (confirmed): when the extractor yields no payload, each list
endpoint returns exactly the recoverable empty result; the extraction
step is total, so no error can arise from it. -/
theorem c5_theorem (html : ScriptParse ListPageData) (h : extractNextData html = none) :
    scrapeComicListCore html = { comics := [], currentPage := 1, totalPages := 1 }
    ∧ scrapeByTypeCore html = { comics := [], currentPage := 1, totalPages := 1 }
    ∧ scrapeByGenreCore html = { comics := [], currentPage := 1, totalPages := 1 } := by
  refine ⟨?_, ?_, ?_⟩ <;> simp [scrapeComicListCore, scrapeByTypeCore, scrapeByGenreCore, h]

theorem c5_witness :
    extractNextData (ScriptParse.badJson : ScriptParse ListPageData) = none
    ∧ (scrapeComicListCore .badJson = { comics := [], currentPage := 1, totalPages := 1 }
        ∧ scrapeByTypeCore .badJson = { comics := [], currentPage := 1, totalPages := 1 }
        ∧ scrapeByGenreCore .badJson = { comics := [], currentPage := 1, totalPages := 1 }) :=
  ⟨rfl, c5_theorem .badJson rfl⟩

/-- C6 counterexample: an upstream payload with `page = 0` and
`maxPage = 0` is passed through unvalidated, so a produced
`SearchResult` can violate the claimed `currentPage ≥ 1` invariant. -/
theorem c6_counterexample :
    (scrapeByTypeCore (.parsed (some { page := 0, maxPage := 0, data := [] }))).currentPage = 0
    ∧ ¬(1 ≤ (scrapeByTypeCore (.parsed (some { page := 0, maxPage := 0, data := [] }))).currentPage) := by
  refine ⟨by decide, by decide⟩

/-- C6 (corrected): the list endpoints copy the upstream `page` and
`maxPage` fields verbatim, so the `currentPage ≥ 1` / `totalPages ≥ 1`
invariant holds exactly when the payload is absent (defaults 1/1) or
itself carries in-range counters. -/
theorem c6_theorem (html : ScriptParse ListPageData)
    (h : ∀ d, extractNextData html = some d → 1 ≤ d.page ∧ 1 ≤ d.maxPage) :
    (1 ≤ (scrapeComicListCore html).currentPage ∧ 1 ≤ (scrapeComicListCore html).totalPages)
    ∧ (1 ≤ (scrapeByTypeCore html).currentPage ∧ 1 ≤ (scrapeByTypeCore html).totalPages)
    ∧ (1 ≤ (scrapeByGenreCore html).currentPage ∧ 1 ≤ (scrapeByGenreCore html).totalPages) := by
  cases hx : extractNextData html with
  | none =>
    refine ⟨?_, ?_, ?_⟩ <;> simp [scrapeComicListCore, scrapeByTypeCore, scrapeByGenreCore, hx]
  | some d =>
    have hd := h d hx
    refine ⟨?_, ?_, ?_⟩ <;>
      simp [scrapeComicListCore, scrapeByTypeCore, scrapeByGenreCore, hx] <;>
      exact hd

theorem c6_witness :
    (1 ≤ (scrapeComicListCore (.parsed (some listPageEx))).currentPage
      ∧ 1 ≤ (scrapeComicListCore (.parsed (some listPageEx))).totalPages)
    ∧ (1 ≤ (scrapeByTypeCore (.parsed (some listPageEx))).currentPage
      ∧ 1 ≤ (scrapeByTypeCore (.parsed (some listPageEx))).totalPages)
    ∧ (1 ≤ (scrapeByGenreCore (.parsed (some listPageEx))).currentPage
      ∧ 1 ≤ (scrapeByGenreCore (.parsed (some listPageEx))).totalPages) :=
  c6_theorem (.parsed (some listPageEx)) (fun d hd => by
    injection hd with h
    subst h
    exact ⟨by decide, by decide⟩)

theorem lpre_exists (p : List Char) : ∀ l : List Char, lpre p l = true → ∃ t, l = p ++ t := by
  induction p with
  | nil => exact fun l _ => ⟨l, rfl⟩
  | cons a as ih =>
    intro l h
    cases l with
    | nil => simp [lpre] at h
    | cons b bs =>
      rw [lpre] at h
      by_cases hab : a = b
      · rw [if_pos hab] at h
        obtain ⟨t, ht⟩ := ih bs h
        subst hab
        exact ⟨t, by rw [ht]; rfl⟩
      · rw [if_neg hab] at h
        exact absurd h (by simp)

theorem strEndsWith_decomp (s p : String) (h : strEndsWith s p = true) :
    ∃ pre : List Char, s.data = pre ++ p.data := by
  obtain ⟨t, ht⟩ := lpre_exists p.data.reverse s.data.reverse h
  refine ⟨t.reverse, ?_⟩
  have := congrArg List.reverse ht
  simpa using this

/-- C7 (confirmed): the Listing Normalizer reconstructs `url` from the
original upstream slug while deriving `slug` by removing the
"-bahasa-indonesia" suffix when present; instantiated at the spec's
"solo-leveling-bahasa-indonesia" example. -/
theorem c7_theorem (item : RawComicItem) :
    (transformComicListing item).url = BASE_URL ++ "/" ++ item.title_slug
    ∧ (strEndsWith item.title_slug "-bahasa-indonesia" = true →
        (transformComicListing item).slug ++ "-bahasa-indonesia" = item.title_slug)
    ∧ (item.title_slug = "solo-leveling-bahasa-indonesia" →
        (transformComicListing item).slug = "solo-leveling"
        ∧ (transformComicListing item).url = "https://softkomik.com/solo-leveling-bahasa-indonesia") := by
  refine ⟨rfl, ?_, ?_⟩
  · intro h
    have hs : (transformComicListing item).slug = strDropRight item.title_slug 17 := by
      simp [transformComicListing, extractSlug, h]
    obtain ⟨pre, hd⟩ := strEndsWith_decomp item.title_slug "-bahasa-indonesia" h
    have hlen : ("-bahasa-indonesia" : String).data.length = 17 := by decide
    have htake : item.title_slug.data.take (item.title_slug.data.length - 17) = pre := by
      rw [hd, List.length_append, hlen, Nat.add_sub_cancel]
      exact List.take_left pre _
    have hdrop : strDropRight item.title_slug 17 = ⟨pre⟩ := by
      unfold strDropRight
      rw [htake]
    rw [hs, hdrop]
    exact congrArg String.mk hd.symm
  · intro h3
    constructor
    · have hs : (transformComicListing item).slug = extractSlug item.title_slug := rfl
      rw [hs, h3]
      decide
    · have hu : (transformComicListing item).url = BASE_URL ++ "/" ++ item.title_slug := rfl
      rw [hu, h3]
      decide

theorem c7_witness :
    (transformComicListing itemEx).slug = "solo-leveling"
    ∧ (transformComicListing itemEx).url = "https://softkomik.com/solo-leveling-bahasa-indonesia" :=
  (c7_theorem itemEx).2.2 rfl

theorem jsSetDedup_head (c : String) (rest : List String) :
    (jsSetDedup (c :: rest)).head? = some c := by
  simp [jsSetDedup, dedupAux]

/-- C2 counterexample: the variant generator also pads NEGATIVE canonical
integer strings — "-5" parses to -5, round-trips to "-5", and receives
blind zero-padding, contradicting "added exactly when the input parses
as a plain non-negative integer". -/
theorem c2_counterexample :
    getChapterVariations "-5" ≠ ["-5"]
    ∧ getChapterVariations "-5" = ["-5", "0-5", "00-5"] := by
  refine ⟨by decide, by decide⟩

/-- C2 (corrected): the output starts with the input verbatim; padded
variants at widths 2, 3, 4 are added exactly when the input round-trips
through JS `parseInt` — a condition that admits negative integers as well
as non-negative ones — and the input is shorter than the width, with
duplicates removed preserving generation order; the spec's three examples
hold as stated. -/
theorem c2_theorem (chapter : String) :
    (getChapterVariations chapter).head? = some chapter
    ∧ (isPlainIntString chapter = false → getChapterVariations chapter = [chapter])
    ∧ (isPlainIntString chapter = true →
        getChapterVariations chapter =
          jsSetDedup ([chapter]
            ++ (if chapter.data.length < 2 then [jsPadStart chapter 2] else [])
            ++ (if chapter.data.length < 3 then [jsPadStart chapter 3] else [])
            ++ (if chapter.data.length < 4 then [jsPadStart chapter 4] else [])))
    ∧ getChapterVariations "8" = ["8", "08", "008", "0008"]
    ∧ getChapterVariations "179" = ["179", "0179"]
    ∧ getChapterVariations "179.5" = ["179.5"] := by
  refine ⟨?_, ?_, ?_, by decide, by decide, by decide⟩
  · cases hp : jsParseInt chapter with
    | none =>
      simp only [getChapterVariations, hp]
      exact jsSetDedup_head chapter []
    | some num =>
      by_cases hq : jsNumToString num = chapter
      · simp only [getChapterVariations, hp, if_pos hq]
        split_ifs <;> exact jsSetDedup_head chapter _
      · simp only [getChapterVariations, hp, if_neg hq]
        exact jsSetDedup_head chapter []
  · intro h
    simp only [isPlainIntString] at h
    cases hp : jsParseInt chapter with
    | none =>
      simp only [getChapterVariations, hp]
      simp [jsSetDedup, dedupAux]
    | some num =>
      rw [hp] at h
      have hq : ¬jsNumToString num = chapter := by simpa using h
      simp only [getChapterVariations, hp, if_neg hq]
      simp [jsSetDedup, dedupAux]
  · intro h
    simp only [isPlainIntString] at h
    cases hp : jsParseInt chapter with
    | none =>
      rw [hp] at h
      exact absurd h (by simp)
    | some num =>
      rw [hp] at h
      have hq : jsNumToString num = chapter := by simpa using h
      simp only [getChapterVariations, hp, if_pos hq, hq]
      split_ifs <;> simp

theorem c2_witness :
    (getChapterVariations "-5").head? = some "-5"
    ∧ getChapterVariations "-5" =
        jsSetDedup (["-5"]
          ++ (if ("-5" : String).data.length < 2 then [jsPadStart "-5" 2] else [])
          ++ (if ("-5" : String).data.length < 3 then [jsPadStart "-5" 3] else [])
          ++ (if ("-5" : String).data.length < 4 then [jsPadStart "-5" 4] else [])) :=
  ⟨( c2_theorem "-5").1, ( c2_theorem "-5").2.2.1 (by decide)⟩

/-- C4 counterexample: a raw detail whose description and alternative
title are present-but-empty strings and whose visitor count is a present
zero is normalized to ABSENT values — the JS `||` idiom conflates empty
with missing, so the empty/unknown distinction is not preserved. -/
theorem c4_counterexample :
    rawDetailAllEmpty.sinopsis = some ""
    ∧ rawDetailAllEmpty.title_alt = some ""
    ∧ rawDetailAllEmpty.visitor = some 0
    ∧ Option.map ComicDetail.description (scrapeComicDetailCore (.parsed (some rawDetailAllEmpty))) = some none
    ∧ Option.map ComicDetail.alternativeTitle (scrapeComicDetailCore (.parsed (some rawDetailAllEmpty))) = some none
    ∧ Option.map ComicDetail.visitor (scrapeComicDetailCore (.parsed (some rawDetailAllEmpty))) = some none := by
  refine ⟨rfl, rfl, rfl, by decide, by decide, by decide⟩

/-- C4 (corrected): the Detail Normalizer is pure and total and maps each
missing optional field to absent, but it also maps present-but-empty
optional values (empty strings, zero visitor count) to absent: an output
field is absent exactly when the raw field is missing OR empty/zero.
Rating objects and the genre list pass through unchanged. -/
theorem c4_theorem (d : RawComicDetail) :
    (∃ cd, scrapeComicDetailCore (.parsed (some d)) = some cd)
    ∧ ∀ cd, scrapeComicDetailCore (.parsed (some d)) = some cd →
        (cd.title = d.title
        ∧ (cd.description = none ↔ (d.sinopsis = none ∨ d.sinopsis = some ""))
        ∧ (cd.alternativeTitle = none ↔ (d.title_alt = none ∨ d.title_alt = some ""))
        ∧ (cd.visitor = none ↔ (d.visitor = none ∨ d.visitor = some 0))
        ∧ (cd.releaseYear = none ↔ (d.tahun = none ∨ d.tahun = some ""))
        ∧ (cd.author = none ↔ (d.author = none ∨ d.author = some ""))
        ∧ (cd.status = none ↔ (d.status = none ∨ d.status = some ""))
        ∧ (cd.type = none ↔ (d.type = none ∨ d.type = some ""))
        ∧ (cd.latestChapter = none ↔ (d.latest_chapter = none ∨ d.latest_chapter = some ""))
        ∧ (cd.updatedAt = none ↔ (d.updated_at = none ∨ d.updated_at = some ""))
        ∧ cd.rating = d.rating
        ∧ cd.genres = d.Genre.getD []) := by
  constructor
  · exact ⟨_, rfl⟩
  · intro cd h
    simp only [scrapeComicDetailCore, extractNextData, Option.some.injEq] at h
    subst h
    exact ⟨rfl, jsOrNullStr_eq_none _, jsOrNullStr_eq_none _, jsOrNullInt_eq_none _,
      jsOrNullStr_eq_none _, jsOrNullStr_eq_none _, jsOrNullStr_eq_none _,
      jsOrNullStr_eq_none _, jsOrNullStr_eq_none _, jsOrNullStr_eq_none _, rfl, rfl⟩

theorem c4_witness :
    scrapeComicDetailCore (.parsed (some rawDetailEmptyFields)) = some detailOutEmptyFields
    ∧ (detailOutEmptyFields.description = none
        ↔ (rawDetailEmptyFields.sinopsis = none ∨ rawDetailEmptyFields.sinopsis = some ""))
    ∧ (detailOutEmptyFields.visitor = none
        ↔ (rawDetailEmptyFields.visitor = none ∨ rawDetailEmptyFields.visitor = some 0)) :=
  ⟨by decide,
    ((c4_theorem rawDetailEmptyFields).2 detailOutEmptyFields (by decide)).2.1,
    ((c4_theorem rawDetailEmptyFields).2 detailOutEmptyFields (by decide)).2.2.2.1⟩


theorem hasImages_true_elim (page : ScriptParse RawChapterData) (h : hasImages page = true) :
    ∃ d dd, page = .parsed (some d) ∧ d.data = some dd ∧ dd.imageSrc ≠ [] := by
  cases page with
  | noScript => simp [hasImages] at h
  | badJson => simp [hasImages] at h
  | parsed o =>
    cases o with
    | none => simp [hasImages] at h
    | some d =>
      cases hdd : d.data with
      | none =>
        simp only [hasImages, hdd] at h
        exact absurd h (by simp)
      | some dd =>
        simp only [hasImages, hdd] at h
        refine ⟨d, dd, rfl, hdd, ?_⟩
        simpa using h

theorem pass1_of_find (fetch : String → Option (ScriptParse RawChapterData)) (slug : String) :
    ∀ (vars : List String) (v : String),
      vars.find? (fun x => goodVariant fetch slug x) = some v →
      ∃ page, pass1 fetch slug vars = some (page, v)
        ∧ fetch (chapterPath slug v) = some page ∧ hasImages page = true := by
  intro vars
  induction vars with
  | nil => intro v h; simp [List.find?] at h
  | cons a rest ih =>
    intro v h
    cases hg : goodVariant fetch slug a with
    | true =>
      simp only [List.find?, hg] at h
      injection h with h
      subst h
      cases hf : fetch (chapterPath slug a) with
      | none =>
        simp only [goodVariant, hf] at hg
        exact absurd hg (by simp)
      | some page =>
        simp only [goodVariant, hf] at hg
        refine ⟨page, ?_, rfl, hg⟩
        simp only [pass1, hf, if_pos hg]
    | false =>
      simp only [List.find?, hg] at h
      obtain ⟨page, hp, hf, hi⟩ := ih v h
      refine ⟨page, ?_, hf, hi⟩
      cases hf' : fetch (chapterPath slug a) with
      | none => simp only [pass1, hf', hp]
      | some page' =>
        simp only [goodVariant, hf'] at hg
        simp only [pass1, hf', hg, Bool.false_eq_true, if_false, hp]

/-- C1 (confirmed): whenever some generated variant's fetched page
carries a non-empty image list, `scrapeChapterImages` succeeds and its
`chapterNumber` is the FIRST such variant in generation order (the
`find?` witness), which may differ from the caller's input. -/
theorem c1_theorem (fetch : String → Option (ScriptParse RawChapterData))
    (comicSlug chapter v : String)
    (h : (getChapterVariations chapter).find? (fun x => goodVariant fetch comicSlug x) = some v) :
    ∃ r, scrapeChapterImages fetch comicSlug chapter = some r ∧ r.chapterNumber = v := by
  obtain ⟨page, hp, hf, hi⟩ := pass1_of_find fetch comicSlug (getChapterVariations chapter) v h
  have ht : tryFetchChapter fetch comicSlug chapter = some (page, v) := by
    simp only [tryFetchChapter, hp]
  obtain ⟨d, dd, hpage, hdd, hne⟩ := hasImages_true_elim page hi
  subst hpage
  simp only [scrapeChapterImages, ht]
  exact ⟨_, rfl, rfl⟩

/-- C1 witness: the spec's scenario — upstream serves images only under
"008", the page under "8" loads without images — resolved from input "8". -/
theorem c1_witness :
    ∃ r, scrapeChapterImages fetchOnlyPadded "solo-leveling" "8" = some r
      ∧ r.chapterNumber = "008" :=
  c1_theorem fetchOnlyPadded "solo-leveling" "8" "008" (by decide)

theorem pass1_eq_none (fetch : String → Option (ScriptParse RawChapterData)) (slug : String) :
    ∀ vars : List String,
      pass1 fetch slug vars = none ↔ ∀ v ∈ vars, goodVariant fetch slug v = false := by
  intro vars
  induction vars with
  | nil => simp [pass1]
  | cons a rest ih =>
    constructor
    · intro h v hv
      cases hf : fetch (chapterPath slug a) with
      | none =>
        simp only [pass1, hf] at h
        rcases List.mem_cons.mp hv with hva | hvr
        · subst hva; simp only [goodVariant, hf]
        · exact (ih.mp h) v hvr
      | some page =>
        simp only [pass1, hf] at h
        by_cases hi : hasImages page = true
        · simp only [if_pos hi] at h
          exact absurd h (by simp)
        · simp only [if_neg hi] at h
          rcases List.mem_cons.mp hv with hva | hvr
          · subst hva
            simp only [goodVariant, hf]
            simpa using hi
          · exact (ih.mp h) v hvr
    · intro h
      have ha := h a (List.mem_cons_self a rest)
      cases hf : fetch (chapterPath slug a) with
      | none =>
        simp only [pass1, hf]
        exact ih.mpr fun v hv => h v (List.mem_cons_of_mem a hv)
      | some page =>
        simp only [goodVariant, hf] at ha
        simp only [pass1, hf, ha, Bool.false_eq_true, if_false]
        exact ih.mpr fun v hv => h v (List.mem_cons_of_mem a hv)

theorem pass1_some_hasImages (fetch : String → Option (ScriptParse RawChapterData)) (slug : String) :
    ∀ (vars : List String) (page : ScriptParse RawChapterData) (v : String),
      pass1 fetch slug vars = some (page, v) → hasImages page = true := by
  intro vars
  induction vars with
  | nil => intro page v h; simp [pass1] at h
  | cons a rest ih =>
    intro page v h
    cases hf : fetch (chapterPath slug a) with
    | none =>
      simp only [pass1, hf] at h
      exact ih page v h
    | some page' =>
      simp only [pass1, hf] at h
      by_cases hi : hasImages page' = true
      · simp only [if_pos hi] at h
        injection h with h
        injection h with h1 h2
        subst h1
        exact hi
      · simp only [if_neg hi] at h
        exact ih page v h

/-- C3 (corrected): per-variant fetch failures are swallowed (the
resolver is a total function of the fetch oracle — it never re-raises a
transport error), but the absent result is NOT equivalent to total
exhaustion: `scrapeChapterImages` is absent iff no variant's page has
images AND, additionally, either no variant loads at all or the first
variant that loads yields a page whose embedded payload is absent or
unparseable. -/
theorem c3_theorem (fetch : String → Option (ScriptParse RawChapterData))
    (comicSlug chapter : String) :
    scrapeChapterImages fetch comicSlug chapter = none ↔
      ((∀ v ∈ getChapterVariations chapter, goodVariant fetch comicSlug v = false)
        ∧ ∀ page usedChapter,
            pass2 fetch comicSlug (getChapterVariations chapter) = some (page, usedChapter) →
            extractNextData page = none) := by
  constructor
  · intro h
    cases hp1 : pass1 fetch comicSlug (getChapterVariations chapter) with
    | some r =>
      obtain ⟨page, v⟩ := r
      have hi := pass1_some_hasImages fetch comicSlug _ page v hp1
      obtain ⟨d, dd, hpage, hdd, hne⟩ := hasImages_true_elim page hi
      subst hpage
      simp only [scrapeChapterImages, tryFetchChapter, hp1] at h
      exact absurd h (by simp)
    | none =>
      refine ⟨(pass1_eq_none fetch comicSlug _).mp hp1, ?_⟩
      intro page usedChapter hp2
      simp only [scrapeChapterImages, tryFetchChapter, hp1, hp2] at h
      cases page with
      | noScript => rfl
      | badJson => rfl
      | parsed o =>
        cases o with
        | none => rfl
        | some d => simp at h
  · intro ⟨h1, h2⟩
    have hp1 : pass1 fetch comicSlug (getChapterVariations chapter) = none :=
      (pass1_eq_none fetch comicSlug _).mpr h1
    cases hp2 : pass2 fetch comicSlug (getChapterVariations chapter) with
    | none => simp only [scrapeChapterImages, tryFetchChapter, hp1, hp2]
    | some r =>
      obtain ⟨page, v⟩ := r
      have hx := h2 page v hp2
      simp only [scrapeChapterImages, tryFetchChapter, hp1, hp2]
      cases page with
      | noScript => rfl
      | badJson => rfl
      | parsed o =>
        cases o with
        | none => rfl
        | some d => simp [extractNextData] at hx

/-- C3 counterexample: a variant page loads successfully (transport
succeeds) yet `scrapeChapterImages` still returns an absent result,
because the loaded page has no embedded data script — refuting "whenever
at least one variant's page loads successfully, a result is returned". -/
theorem c3_counterexample :
    (fetchLoadsNoScript (chapterPath "solo-leveling" "8")).isSome = true
    ∧ scrapeChapterImages fetchLoadsNoScript "solo-leveling" "8" = none := by
  refine ⟨by decide, by decide⟩

theorem countOccur_append (needle s t : List Char) :
    countOccur needle (s ++ t) = countAux needle s t + countOccur needle t := by
  induction s with
  | nil => simp [countAux]
  | cons c s ih =>
    simp only [List.cons_append, countOccur, countAux, ih, List.append_eq]
    omega

theorem lpre_self_append (n : List Char) : ∀ t, lpre n (n ++ t) = true := by
  induction n with
  | nil => intro t; rfl
  | cons a as ih => intro t; simp [lpre, ih]

set_option maxRecDepth 4000 in
theorem countAux_chapter_pre (c : Char) (t : List Char) (hc : c = 'N' ∨ c = 'i') :
    countAux segChars
      ['h', 't', 't', 'p', 's', ':', '/', '/', 'i', 'm', 'a', 'g', 'e', '.', 's', 'o', 'f', 't', 'k', 'o', 'm', 'i', 'k', '.', 'c', 'o', 'm', '/', 's', 'o', 'f', 't', 'k', 'o', 'm', 'i', 'k', '/']
      (c :: t) = 1 := by
  rcases hc with rfl | rfl <;> simp [countAux, lpre, segChars]

/-- C8 counterexample: a raw chapter path that itself contains the
"/softkomik/" segment resolves to a URL containing the segment TWICE,
refuting "contains the additional chapter path segment exactly once"
as a universal statement over chapter-prefixed raw paths. -/
theorem c8_counterexample :
    resolveImage (some "NodeJs/softkomik/x") = some "https://image.softkomik.com/softkomik/NodeJs/softkomik/x"
    ∧ countOccur segChars ("https://image.softkomik.com/softkomik/NodeJs/softkomik/x").data = 2 := by
  refine ⟨by decide, by decide⟩

/-- C8 (corrected): for every raw path beginning with a chapter-prefix
convention ("NodeJs/" or "img-file/") that does not itself contain the
"/softkomik/" segment, the resolved URL starts with the image origin and
contains the segment exactly once; when the raw path already contains the
segment, each such occurrence is carried over in addition to the one the
resolver inserts. -/
theorem c8_theorem (p : String)
    (hpre : strStartsWith p "NodeJs/" = true ∨ strStartsWith p "img-file/" = true)
    (hclean : countOccur segChars p.data = 0) :
    ∃ out, resolveImage (some p) = some out
      ∧ strStartsWith out IMAGE_BASE_URL = true
      ∧ countOccur segChars out.data = 1 := by
  by_cases he : p = ""
  · rcases hpre with h | h <;> rw [he] at h <;> exact absurd h (by decide)
  · have hfacts :
        strStartsWith p "http" = false
        ∧ strStartsWith p "/" = false
        ∧ strStartsWith p "image-cover/" = false
        ∧ strStartsWith p "uploads-cover" = false
        ∧ countAux segChars
            ['h', 't', 't', 'p', 's', ':', '/', '/', 'i', 'm', 'a', 'g', 'e', '.', 's', 'o', 'f', 't', 'k', 'o', 'm', 'i', 'k', '.', 'c', 'o', 'm', '/', 's', 'o', 'f', 't', 'k', 'o', 'm', 'i', 'k', '/']
            p.data = 1 := by
      rcases hpre with h | h
      · obtain ⟨rest, hd⟩ := lpre_exists _ _ h
        refine ⟨?_, ?_, ?_, ?_, ?_⟩
        · rw [strStartsWith, hd]; simp [lpre]
        · rw [strStartsWith, hd]; simp [lpre]
        · rw [strStartsWith, hd]; simp [lpre]
        · rw [strStartsWith, hd]; simp [lpre]
        · rw [hd]
          exact countAux_chapter_pre 'N' _ (Or.inl rfl)
      · obtain ⟨rest, hd⟩ := lpre_exists _ _ h
        refine ⟨?_, ?_, ?_, ?_, ?_⟩
        · rw [strStartsWith, hd]; simp [lpre]
        · rw [strStartsWith, hd]; simp [lpre]
        · rw [strStartsWith, hd]; simp [lpre]
        · rw [strStartsWith, hd]; simp [lpre]
        · rw [hd]
          exact countAux_chapter_pre 'i' _ (Or.inr rfl)
    obtain ⟨hhttp, hslash, hcov1, hcov2, hcount⟩ := hfacts
    have hchap : strStartsWith p "NodeJs/" || strStartsWith p "img-file/" = true := by
      rcases hpre with h | h <;> simp [h]
    have hres : resolveImage (some p) = some (IMAGE_BASE_URL ++ "/softkomik/" ++ p) := by
      simp [resolveImage, he, hhttp, hslash, hcov1, hcov2]
      rcases hpre with h | h <;> simp [h]
    refine ⟨IMAGE_BASE_URL ++ "/softkomik/" ++ p, hres, ?_, ?_⟩
    · have hout : (IMAGE_BASE_URL ++ "/softkomik/" ++ p).data
          = IMAGE_BASE_URL.data ++ (("/softkomik/" : String).data ++ p.data) := by
        show (IMAGE_BASE_URL.data ++ ("/softkomik/" : String).data) ++ p.data = _
        rw [List.append_assoc]
      rw [strStartsWith, hout]
      exact lpre_self_append _ _
    · have hA : (IMAGE_BASE_URL ++ "/softkomik/" ++ p).data
          = ['h', 't', 't', 'p', 's', ':', '/', '/', 'i', 'm', 'a', 'g', 'e', '.', 's', 'o', 'f', 't', 'k', 'o', 'm', 'i', 'k', '.', 'c', 'o', 'm', '/', 's', 'o', 'f', 't', 'k', 'o', 'm', 'i', 'k', '/'] ++ p.data := rfl
      rw [hA, countOccur_append, hclean, hcount]

theorem c8_witness :
    (strStartsWith "NodeJs/ch1/p1.webp" "NodeJs/" = true ∨ strStartsWith "NodeJs/ch1/p1.webp" "img-file/" = true)
    ∧ countOccur segChars ("NodeJs/ch1/p1.webp" : String).data = 0
    ∧ ∃ out, resolveImage (some "NodeJs/ch1/p1.webp") = some out
        ∧ strStartsWith out IMAGE_BASE_URL = true
        ∧ countOccur segChars out.data = 1 :=
  ⟨Or.inl (by decide), by decide,
    c8_theorem "NodeJs/ch1/p1.webp" (Or.inl (by decide)) (by decide)⟩
